import Mathlib

/-!
Verification of the account domain model of hold-a-coin
(`src/account/model.rs`), shallowly embedded in Lean 4.

Monetary amounts are `u64` counts of 1/10000 coin fractions; we model
them as naturals strictly below `2^64` and translate Rust's
`overflowing_add` / `overflowing_sub` explicitly.  The transaction
state machine `Account::apply` mutates the account in place in Rust;
here it is a function returning the new account together with the
`Result`, where every arm is translated statement by statement: the
account value returned on an error path is the state at the moment the
`?` operator propagated the error.
-/

namespace HoldACoin

/-- The modulus of `u64` arithmetic. -/
def U64_MOD : Nat := 2 ^ 64

/-- Domain errors (`enum Error` in `model.rs`). -/
inductive Error where
  | Arithmetic
  | InsufficientFunds
deriving DecidableEq

/-- Alias `Result<T> = Result<T, Error>` from `model.rs`. -/
inductive Result (α : Type) where
  | ok : α → Result α
  | err : Error → Result α
deriving DecidableEq

/-- Rust `struct Amount(u64)`: quantity of 1/10000 fractions of a coin. -/
structure Amount where
  val : Nat
  isLt : val < U64_MOD

instance : DecidableEq Amount := fun a b =>
  decidable_of_iff (a.val = b.val) (by cases a; cases b; simp)

/-- Constructor `Amount::new`, the zero amount. -/
def Amount.new : Amount := ⟨0, by decide⟩

/-- Rust `u64::overflowing_add`: the wrapped sum and the overflow flag. -/
def Amount.overflowingAdd (a b : Amount) : Nat × Bool :=
  ((a.val + b.val) % U64_MOD, decide (U64_MOD ≤ a.val + b.val))

/-- Method `Amount::add`: checked addition, `Err(Error::Arithmetic)` on
overflow. -/
def Amount.add (a b : Amount) : Result Amount :=
  let p := a.overflowingAdd b
  if p.snd then .err .Arithmetic
  else .ok ⟨p.fst, Nat.mod_lt _ (by decide)⟩

/-- Rust `u64::overflowing_sub`: the wrapped difference and the underflow flag.
For `a, b < 2^64` the wrapped value is `(a + 2^64 - b) % 2^64`. -/
def Amount.overflowingSub (a b : Amount) : Nat × Bool :=
  ((a.val + U64_MOD - b.val) % U64_MOD, decide (a.val < b.val))

/-- Method `Amount::sub`: checked subtraction, `Err(Error::Arithmetic)` on
underflow. -/
def Amount.sub (a b : Amount) : Result Amount :=
  let p := a.overflowingSub b
  if p.snd then .err .Arithmetic
  else .ok ⟨p.fst, Nat.mod_lt _ (by decide)⟩

/-- Rust `struct ClientId(u16)`: opaque client identifier (equality only). -/
structure ClientId where
  val : Nat
deriving DecidableEq

/-- Rust `struct Tx(u32)`: opaque transaction identifier (equality only). -/
structure Tx where
  val : Nat
deriving DecidableEq

/-- Rust `enum Transaction` from `model.rs`. -/
inductive Transaction where
  | Deposit : Tx → Amount → Transaction
  | Withdrawal : Tx → Amount → Transaction
  | Dispute : Tx → Transaction
  | Resolve : Tx → Transaction
  | Chargeback : Tx → Transaction
deriving DecidableEq

/-- Rust `struct Deposit`: a deposit stored in the client's account ledger. -/
structure Deposit where
  tx : Tx
  amount : Amount
  disputed : Bool
deriving DecidableEq

/-- Constructor `Deposit::new`. -/
def Deposit.new (tx : Tx) (amount : Amount) : Deposit :=
  { tx := tx, amount := amount, disputed := false }

/-- Rust `struct Account`. -/
structure Account where
  owner : ClientId
  available : Amount
  held : Amount
  locked : Bool
  deposits : List Deposit
deriving DecidableEq

/-- Constructor `Account::new`. -/
def Account.new (clientId : ClientId) : Account :=
  { owner := clientId, available := Amount.new, held := Amount.new,
    locked := false, deposits := [] }

/-- The lookup `self.deposits.iter().find(|d| d.tx == other_tx)`: the first
entry carrying the given transaction id. -/
def findDeposit (txv : Tx) : List Deposit → Option Deposit
  | [] => none
  | d :: ds => if d.tx = txv then some d else findDeposit txv ds

/-- The in-place write `dep.disputed = b` through the `iter_mut().find`
reference: update the disputed flag of the first entry with this tx. -/
def setDisputed (txv : Tx) (b : Bool) : List Deposit → List Deposit
  | [] => []
  | d :: ds =>
    if d.tx = txv then { d with disputed := b } :: ds
    else d :: setDisputed txv b ds

/-- The state machine `Account::apply`, translated arm by arm from
`model.rs` lines 229-283.
Rust's `expr?` early return is modelled by returning the account state
current at that point (no mutation has happened yet in any arm). -/
def Account.apply (a : Account) (t : Transaction) : Account × Result Unit :=
  match t with
  | .Deposit id amount =>
    match a.available.add amount with
    | .err e => (a, .err e)
    | .ok newAvail =>
      ({ a with available := newAvail,
                deposits := a.deposits ++ [Deposit.new id amount] }, .ok ())
  | .Withdrawal _ amount =>
    match a.available.sub amount with
    | .err _ => (a, .err .InsufficientFunds)
    | .ok newAvail => ({ a with available := newAvail }, .ok ())
  | .Dispute otherTx =>
    match findDeposit otherTx a.deposits with
    | some dep =>
      if dep.disputed then (a, .ok ())
      else
        match a.available.sub dep.amount with
        | .err _ => (a, .err .InsufficientFunds)
        | .ok newAvail =>
          match a.held.add dep.amount with
          | .err e => (a, .err e)
          | .ok newHeld =>
            ({ a with available := newAvail, held := newHeld,
                      deposits := setDisputed otherTx true a.deposits }, .ok ())
    | none => (a, .ok ())
  | .Resolve otherTx =>
    match findDeposit otherTx a.deposits with
    | some dep =>
      if dep.disputed then
        match a.held.sub dep.amount with
        | .err _ => (a, .err .InsufficientFunds)
        | .ok newHeld =>
          match a.available.add dep.amount with
          | .err e => (a, .err e)
          | .ok newAvail =>
            ({ a with available := newAvail, held := newHeld,
                      deposits := setDisputed otherTx false a.deposits }, .ok ())
      else (a, .ok ())
    | none => (a, .ok ())
  | .Chargeback otherTx =>
    match findDeposit otherTx a.deposits with
    | some dep =>
      if dep.disputed then
        match a.held.sub dep.amount with
        | .err _ => (a, .err .InsufficientFunds)
        | .ok newHeld => ({ a with held := newHeld, locked := true }, .ok ())
      else (a, .ok ())
    | none => (a, .ok ())

/-! ### Concrete accounts and ledger entries used by witnesses and
counterexamples -/

/-- Concrete account with 5.0 coins available, used by the C5 witness. -/
def acctFive : Account :=
  { owner := ⟨2⟩, available := ⟨50000, by decide⟩,
    held := Amount.new, locked := false, deposits := [] }

/-- Concrete account with 2.0 coins available, used by the C5 witness. -/
def acctTwo : Account :=
  { owner := ⟨2⟩, available := ⟨20000, by decide⟩,
    held := Amount.new, locked := false, deposits := [] }

/-- Account with two deposits (1.0 coin at tx 1 and 2.0 coins at tx 2),
all funds available, used by the C2 witness. -/
def acctTwoDeposits : Account :=
  { owner := ⟨1⟩, available := ⟨30000, by decide⟩, held := Amount.new,
    locked := false,
    deposits := [Deposit.new ⟨1⟩ ⟨10000, by decide⟩,
      Deposit.new ⟨2⟩ ⟨20000, by decide⟩] }

/-- A disputed 5.0-coin deposit ledger entry at tx 1. -/
def depFiveDisputed : Deposit :=
  { tx := ⟨1⟩, amount := ⟨50000, by decide⟩, disputed := true }

/-- The account reached by: deposit 5.0 coins (tx 1), dispute tx 1,
chargeback tx 1.  Held is back to zero, the account is locked, and the
tx 1 ledger entry is still flagged disputed. -/
def acctPostChargeback : Account :=
  { owner := ⟨1⟩, available := Amount.new, held := Amount.new,
    locked := true, deposits := [depFiveDisputed] }

/-- A disputed 1.0-coin deposit ledger entry at tx 1. -/
def depOneDisputed : Deposit :=
  { tx := ⟨1⟩, amount := ⟨10000, by decide⟩, disputed := true }

/-- Account with deposits 1.0 (tx 1, disputed) and 2.0 (tx 2), 2.0
available and 1.0 held: the state after the spec's end-to-end scenario
deposit 1.0, deposit 2.0, dispute tx 1. -/
def acctDisputedOne : Account :=
  { owner := ⟨1⟩, available := ⟨20000, by decide⟩,
    held := ⟨10000, by decide⟩, locked := false,
    deposits := [depOneDisputed, Deposit.new ⟨2⟩ ⟨20000, by decide⟩] }

/-- A disputed 2.0-coin deposit ledger entry at tx 2. -/
def depTwoDisputed : Deposit :=
  { tx := ⟨2⟩, amount := ⟨20000, by decide⟩, disputed := true }

/-- Account with two disputed deposits (1.0 at tx 1, 2.0 at tx 2) and
3.0 coins held, used by the C8 witness. -/
def acctBothDisputed : Account :=
  { owner := ⟨1⟩, available := Amount.new,
    held := ⟨30000, by decide⟩, locked := false,
    deposits := [depOneDisputed, depTwoDisputed] }

/-- State of `acctBothDisputed` after Chargeback(1): held 2.0, locked, both
ledger entries still flagged disputed. -/
def acctAfterCb : Account :=
  { owner := ⟨1⟩, available := Amount.new,
    held := ⟨20000, by decide⟩, locked := true,
    deposits := [depOneDisputed, depTwoDisputed] }

/-! ### Basic facts about the checked arithmetic -/

theorem Amount.val_inj {a b : Amount} (h : a.val = b.val) : a = b := by
  cases a; cases b; simpa using h

theorem Amount.add_ok (a b : Amount) (h : a.val + b.val < U64_MOD) :
    a.add b = .ok ⟨a.val + b.val, h⟩ := by
  simp only [Amount.add, Amount.overflowingAdd]
  rw [if_neg (by simpa using Nat.not_le_of_lt h)]
  exact congrArg Result.ok (Amount.val_inj (Nat.mod_eq_of_lt h))

theorem Amount.add_err (a b : Amount) (h : U64_MOD ≤ a.val + b.val) :
    a.add b = .err .Arithmetic := by
  simp only [Amount.add, Amount.overflowingAdd]
  rw [if_pos (by simpa using h)]

theorem Amount.sub_ok (a b : Amount) (h : b.val ≤ a.val) :
    a.sub b = .ok ⟨a.val - b.val,
      Nat.lt_of_le_of_lt (Nat.sub_le _ _) a.isLt⟩ := by
  simp only [Amount.sub, Amount.overflowingSub]
  rw [if_neg (by simpa using Nat.not_lt_of_le h)]
  refine congrArg Result.ok (Amount.val_inj ?_)
  show (a.val + U64_MOD - b.val) % U64_MOD = a.val - b.val
  have h1 : a.val + U64_MOD - b.val = (a.val - b.val) + U64_MOD := by omega
  rw [h1, Nat.add_mod_right,
    Nat.mod_eq_of_lt (Nat.lt_of_le_of_lt (Nat.sub_le _ _) a.isLt)]

theorem Amount.sub_err (a b : Amount) (h : a.val < b.val) :
    a.sub b = .err .Arithmetic := by
  simp only [Amount.sub, Amount.overflowingSub]
  rw [if_pos (by simpa using h)]

/-! ### Claim theorems -/

/-- C9. Checked Amount arithmetic: `add` returns the exact sum of the
ten-thousandths counters when it stays within the unsigned 64-bit range
and fails with `Arithmetic` exactly when it exceeds it; `sub` returns
the exact difference when `b ≤ a` and fails with `Arithmetic` exactly
when `b > a`. -/
theorem amount_checked_arithmetic (a b : Amount) :
    (a.val + b.val < U64_MOD → ∃ c, a.add b = .ok c ∧ c.val = a.val + b.val) ∧
    (U64_MOD ≤ a.val + b.val → a.add b = .err .Arithmetic) ∧
    (b.val ≤ a.val → ∃ c, a.sub b = .ok c ∧ c.val = a.val - b.val) ∧
    (a.val < b.val → a.sub b = .err .Arithmetic) := by
  refine ⟨fun h => ⟨_, Amount.add_ok a b h, rfl⟩, Amount.add_err a b,
    fun h => ⟨_, Amount.sub_ok a b h, rfl⟩, Amount.sub_err a b⟩

/-- Witness for C9 at the concrete amounts 993400 and 534400
(99.34 and 53.44 coins, as in the repository's unit test). -/
theorem amount_checked_arithmetic_witness :
    (∃ c, Amount.add ⟨993400, by decide⟩ ⟨534400, by decide⟩ = .ok c ∧
      c.val = 1527800) ∧
    (∃ c, Amount.sub ⟨993400, by decide⟩ ⟨534400, by decide⟩ = .ok c ∧
      c.val = 459000) := by
  have h := amount_checked_arithmetic ⟨993400, by decide⟩ ⟨534400, by decide⟩
  exact ⟨h.1 (by decide), h.2.2.1 (by decide)⟩

/-- C5. Withdrawal semantics: `apply (Withdrawal tx amt)` subtracts `amt`
from `available` when `amt ≤ available`, fails with `InsufficientFunds`
exactly when `amt > available` (leaving the account untouched), and in
all cases never appends a ledger entry nor changes `held` or `locked`. -/
theorem withdrawal_spec (a : Account) (txv : Tx) (amount : Amount) :
    (amount.val ≤ a.available.val →
      (a.apply (.Withdrawal txv amount)).snd = .ok () ∧
      (a.apply (.Withdrawal txv amount)).fst.available.val
        = a.available.val - amount.val) ∧
    (a.available.val < amount.val →
      a.apply (.Withdrawal txv amount) = (a, .err .InsufficientFunds)) ∧
    (a.apply (.Withdrawal txv amount)).fst.held = a.held ∧
    (a.apply (.Withdrawal txv amount)).fst.locked = a.locked ∧
    (a.apply (.Withdrawal txv amount)).fst.deposits = a.deposits := by
  refine ⟨fun h => ?_, fun h => ?_, ?_, ?_, ?_⟩
  · simp [Account.apply, Amount.sub_ok a.available amount h]
  · simp [Account.apply, Amount.sub_err a.available amount h]
  all_goals rcases Nat.lt_or_ge a.available.val amount.val with h | h
  all_goals simp [Account.apply, Amount.sub_ok a.available amount,
    Amount.sub_err a.available amount, h]

/-- Witness for C5: withdrawing 3.0 coins from an account holding 5.0
available leaves 2.0 available; withdrawing 3.0 when only 2.0 is
available fails with `InsufficientFunds`. -/
theorem withdrawal_spec_witness :
    ((acctFive.apply (.Withdrawal ⟨4⟩ ⟨30000, by decide⟩)).snd = .ok () ∧
      (acctFive.apply
        (.Withdrawal ⟨4⟩ ⟨30000, by decide⟩)).fst.available.val = 20000) ∧
    acctTwo.apply (.Withdrawal ⟨5⟩ ⟨30000, by decide⟩)
      = (acctTwo, .err .InsufficientFunds) := by
  constructor
  · exact (withdrawal_spec acctFive ⟨4⟩ ⟨30000, by decide⟩).1 (by decide)
  · exact (withdrawal_spec acctTwo ⟨5⟩ ⟨30000, by decide⟩).2.1 (by decide)

/-- Helper for C1: every branch of `apply` either succeeds or returns
the account unchanged. -/
theorem apply_ok_or_id (a : Account) (t : Transaction) :
    (a.apply t).snd = .ok () ∨ (a.apply t).fst = a := by
  rcases hr : a.apply t with ⟨b, r⟩
  cases t <;> simp only [Account.apply] at hr <;>
    (repeat' split at hr) <;>
    (injection hr with h1 h2) <;> subst h1 <;> subst h2 <;> simp

/-- C1. Atomicity on failure: whenever `apply` returns an error, the
account (available, held, locked and the full deposit log) is exactly
the state before the call. -/
theorem apply_atomic (a : Account) (t : Transaction) (e : Error)
    (h : (a.apply t).snd = .err e) : (a.apply t).fst = a := by
  rcases apply_ok_or_id a t with hok | hid
  · rw [hok] at h; cases h
  · exact hid

/-- Witness for C1: a failing withdrawal (1.0 coin from an empty
account) leaves the account exactly as it was. -/
theorem apply_atomic_witness :
    (Account.apply (Account.new ⟨7⟩) (.Withdrawal ⟨1⟩ ⟨10000, by decide⟩)).snd
      = .err .InsufficientFunds ∧
    (Account.apply (Account.new ⟨7⟩) (.Withdrawal ⟨1⟩ ⟨10000, by decide⟩)).fst
      = Account.new ⟨7⟩ := by
  refine ⟨by decide, apply_atomic (Account.new ⟨7⟩)
    (.Withdrawal ⟨1⟩ ⟨10000, by decide⟩) .InsufficientFunds (by decide)⟩

/-- C2. Dispute semantics: when the ledger lookup finds a non-disputed
deposit entry for `tx`, `apply (Dispute tx)` fails with
`InsufficientFunds` when the deposit amount exceeds `available`, fails
with `Arithmetic` when (the amount fits in `available` but)
`held + amount` overflows `u64`, and otherwise succeeds, moving the
amount from `available` to `held` and marking the entry disputed. -/
theorem dispute_spec (a : Account) (txv : Tx) (dep : Deposit)
    (hfind : findDeposit txv a.deposits = some dep)
    (hnd : dep.disputed = false) :
    (a.available.val < dep.amount.val →
      a.apply (.Dispute txv) = (a, .err .InsufficientFunds)) ∧
    (dep.amount.val ≤ a.available.val →
      U64_MOD ≤ a.held.val + dep.amount.val →
      a.apply (.Dispute txv) = (a, .err .Arithmetic)) ∧
    (dep.amount.val ≤ a.available.val →
      a.held.val + dep.amount.val < U64_MOD →
      (a.apply (.Dispute txv)).snd = .ok () ∧
      (a.apply (.Dispute txv)).fst.available.val
        = a.available.val - dep.amount.val ∧
      (a.apply (.Dispute txv)).fst.held.val
        = a.held.val + dep.amount.val ∧
      (a.apply (.Dispute txv)).fst.deposits
        = setDisputed txv true a.deposits ∧
      (a.apply (.Dispute txv)).fst.locked = a.locked) := by
  refine ⟨fun h1 => ?_, fun h1 h2 => ?_, fun h1 h2 => ?_⟩
  · simp [Account.apply, hfind, hnd,
      Amount.sub_err a.available dep.amount h1]
  · simp [Account.apply, hfind, hnd,
      Amount.sub_ok a.available dep.amount h1,
      Amount.add_err a.held dep.amount h2]
  · simp [Account.apply, hfind, hnd,
      Amount.sub_ok a.available dep.amount h1,
      Amount.add_ok a.held dep.amount h2]

/-- Witness for C2: disputing tx 1 on `acctTwoDeposits` moves 1.0 coin
from available to held and marks the first ledger entry disputed. -/
theorem dispute_spec_witness :
    (acctTwoDeposits.apply (.Dispute ⟨1⟩)).snd = .ok () ∧
    (acctTwoDeposits.apply (.Dispute ⟨1⟩)).fst.available.val = 20000 ∧
    (acctTwoDeposits.apply (.Dispute ⟨1⟩)).fst.held.val = 10000 ∧
    (acctTwoDeposits.apply (.Dispute ⟨1⟩)).fst.deposits
      = setDisputed ⟨1⟩ true acctTwoDeposits.deposits ∧
    (acctTwoDeposits.apply (.Dispute ⟨1⟩)).fst.locked = false := by
  have h := (dispute_spec acctTwoDeposits ⟨1⟩
    (Deposit.new ⟨1⟩ ⟨10000, by decide⟩) (by decide) (by decide)).2.2
    (by decide) (by decide)
  exact ⟨h.1, h.2.1, h.2.2.1, h.2.2.2.1, h.2.2.2.2⟩

/-- C4. Invalid dispute-family references are silent no-ops: when the
ledger lookup for `tx` finds nothing, Dispute, Resolve and Chargeback
all return success with the account unchanged; when it finds an
already-disputed entry, Dispute is such a no-op; when it finds a
non-disputed entry, Resolve and Chargeback are such no-ops. -/
theorem invalid_reference_noop (a : Account) (txv : Tx) :
    (findDeposit txv a.deposits = none →
      a.apply (.Dispute txv) = (a, .ok ()) ∧
      a.apply (.Resolve txv) = (a, .ok ()) ∧
      a.apply (.Chargeback txv) = (a, .ok ())) ∧
    (∀ dep, findDeposit txv a.deposits = some dep →
      (dep.disputed = true → a.apply (.Dispute txv) = (a, .ok ())) ∧
      (dep.disputed = false →
        a.apply (.Resolve txv) = (a, .ok ()) ∧
        a.apply (.Chargeback txv) = (a, .ok ()))) := by
  refine ⟨fun h => ?_, fun dep h => ⟨fun hd => ?_, fun hd => ?_⟩⟩
  · refine ⟨?_, ?_, ?_⟩ <;> simp [Account.apply, h]
  · simp [Account.apply, h, hd]
  · refine ⟨?_, ?_⟩ <;> simp [Account.apply, h, hd]

/-- Witness for C4: on `acctTwoDeposits`, a Dispute of the unknown tx 9
and a Resolve and Chargeback of the non-disputed tx 2 are all silent
no-ops. -/
theorem invalid_reference_noop_witness :
    (acctTwoDeposits.apply (.Dispute ⟨9⟩) = (acctTwoDeposits, .ok ()) ∧
      acctTwoDeposits.apply (.Resolve ⟨9⟩) = (acctTwoDeposits, .ok ()) ∧
      acctTwoDeposits.apply (.Chargeback ⟨9⟩)
        = (acctTwoDeposits, .ok ())) ∧
    (acctTwoDeposits.apply (.Resolve ⟨2⟩) = (acctTwoDeposits, .ok ()) ∧
      acctTwoDeposits.apply (.Chargeback ⟨2⟩)
        = (acctTwoDeposits, .ok ())) := by
  refine ⟨(invalid_reference_noop acctTwoDeposits ⟨9⟩).1 (by decide), ?_⟩
  exact ((invalid_reference_noop acctTwoDeposits ⟨2⟩).2
    (Deposit.new ⟨2⟩ ⟨20000, by decide⟩) (by decide)).2 (by decide)

/-- C6. No post-lock guard: two accounts identical except for the
`locked` flag produce, for every transaction, the same result tag and
the same available, held and deposit-log state. -/
theorem apply_locked_independent (a : Account) (t : Transaction) :
    (Account.apply { a with locked := false } t).snd
      = (Account.apply { a with locked := true } t).snd ∧
    (Account.apply { a with locked := false } t).fst.available
      = (Account.apply { a with locked := true } t).fst.available ∧
    (Account.apply { a with locked := false } t).fst.held
      = (Account.apply { a with locked := true } t).fst.held ∧
    (Account.apply { a with locked := false } t).fst.deposits
      = (Account.apply { a with locked := true } t).fst.deposits := by
  cases t with
  | Deposit id amount =>
    simp only [Account.apply]
    cases a.available.add amount <;> simp
  | Withdrawal id amount =>
    simp only [Account.apply]
    cases a.available.sub amount <;> simp
  | Dispute otherTx =>
    simp only [Account.apply]
    cases findDeposit otherTx a.deposits with
    | none => simp
    | some dep =>
      cases hd : dep.disputed with
      | true => simp [hd]
      | false =>
        simp only [hd, Bool.false_eq_true, if_false]
        cases a.available.sub dep.amount with
        | err e => simp
        | ok newAvail =>
          cases a.held.add dep.amount with
          | err e => simp
          | ok newHeld => simp
  | Resolve otherTx =>
    simp only [Account.apply]
    cases findDeposit otherTx a.deposits with
    | none => simp
    | some dep =>
      cases hd : dep.disputed with
      | false => simp [hd]
      | true =>
        simp only [hd, if_true]
        cases a.held.sub dep.amount with
        | err e => simp
        | ok newHeld =>
          cases a.available.add dep.amount with
          | err e => simp
          | ok newAvail => simp
  | Chargeback otherTx =>
    simp only [Account.apply]
    cases findDeposit otherTx a.deposits with
    | none => simp
    | some dep =>
      cases hd : dep.disputed with
      | false => simp [hd]
      | true =>
        simp only [hd, if_true]
        cases a.held.sub dep.amount with
        | err e => simp
        | ok newHeld => simp

/-! ### Ledger lemmas: `findDeposit` and `setDisputed` -/

/-- Setting the disputed flag of the first `txv` entry is what the
subsequent lookup sees. -/
theorem findDeposit_setDisputed (txv : Tx) (b : Bool) (l : List Deposit)
    (dep : Deposit) (h : findDeposit txv l = some dep) :
    findDeposit txv (setDisputed txv b l)
      = some { dep with disputed := b } := by
  induction l with
  | nil => cases h
  | cons d ds ih =>
    by_cases hd : d.tx = txv
    · simp only [findDeposit, setDisputed, hd, if_true] at h ⊢
      cases h
      rw [hd]
    · simp only [findDeposit, setDisputed, hd, if_false] at h ⊢
      exact ih h

/-- Two successive flag writes on the same tx collapse to the last. -/
theorem setDisputed_setDisputed (txv : Tx) (b c : Bool)
    (l : List Deposit) :
    setDisputed txv c (setDisputed txv b l) = setDisputed txv c l := by
  induction l with
  | nil => rfl
  | cons d ds ih =>
    by_cases hd : d.tx = txv <;>
      simp only [setDisputed, hd, if_true, if_false, ih]

/-- Writing the flag value the first matching entry already carries is
the identity on the ledger. -/
theorem setDisputed_id (txv : Tx) (b : Bool) (l : List Deposit)
    (dep : Deposit) (hf : findDeposit txv l = some dep)
    (hb : dep.disputed = b) : setDisputed txv b l = l := by
  induction l with
  | nil => rfl
  | cons d ds ih =>
    by_cases hd : d.tx = txv
    · simp only [findDeposit, hd, if_true, Option.some.injEq] at hf
      subst hf
      subst hb
      simp only [setDisputed, hd, if_true]
      rw [← hd]
    · simp only [findDeposit, hd, if_false] at hf
      simp only [setDisputed, hd, if_false, ih hf]

/-! ### Success- and failure-shape lemmas for the dispute family -/

theorem apply_dispute_ok (a : Account) (txv : Tx) (dep : Deposit)
    (hfind : findDeposit txv a.deposits = some dep)
    (hnd : dep.disputed = false)
    (h1 : dep.amount.val ≤ a.available.val)
    (h2 : a.held.val + dep.amount.val < U64_MOD) :
    a.apply (.Dispute txv)
      = ({ a with
            available := ⟨a.available.val - dep.amount.val,
              Nat.lt_of_le_of_lt (Nat.sub_le _ _) a.available.isLt⟩,
            held := ⟨a.held.val + dep.amount.val, h2⟩,
            deposits := setDisputed txv true a.deposits }, .ok ()) := by
  simp [Account.apply, hfind, hnd, Amount.sub_ok a.available dep.amount h1,
    Amount.add_ok a.held dep.amount h2]

theorem apply_chargeback_ok (a : Account) (txv : Tx) (dep : Deposit)
    (hfind : findDeposit txv a.deposits = some dep)
    (hd : dep.disputed = true)
    (h1 : dep.amount.val ≤ a.held.val) :
    a.apply (.Chargeback txv)
      = ({ a with
            held := ⟨a.held.val - dep.amount.val,
              Nat.lt_of_le_of_lt (Nat.sub_le _ _) a.held.isLt⟩,
            locked := true }, .ok ()) := by
  simp [Account.apply, hfind, hd, Amount.sub_ok a.held dep.amount h1]

theorem apply_chargeback_err (a : Account) (txv : Tx) (dep : Deposit)
    (hfind : findDeposit txv a.deposits = some dep)
    (hd : dep.disputed = true)
    (h1 : a.held.val < dep.amount.val) :
    a.apply (.Chargeback txv) = (a, .err .InsufficientFunds) := by
  simp [Account.apply, hfind, hd, Amount.sub_err a.held dep.amount h1]

theorem apply_resolve_ok (a : Account) (txv : Tx) (dep : Deposit)
    (hfind : findDeposit txv a.deposits = some dep)
    (hd : dep.disputed = true)
    (h1 : dep.amount.val ≤ a.held.val)
    (h2 : a.available.val + dep.amount.val < U64_MOD) :
    a.apply (.Resolve txv)
      = ({ a with
            available := ⟨a.available.val + dep.amount.val, h2⟩,
            held := ⟨a.held.val - dep.amount.val,
              Nat.lt_of_le_of_lt (Nat.sub_le _ _) a.held.isLt⟩,
            deposits := setDisputed txv false a.deposits }, .ok ()) := by
  simp [Account.apply, hfind, hd, Amount.sub_ok a.held dep.amount h1,
    Amount.add_ok a.available dep.amount h2]

/-- Accounts are equal when all five fields are. -/
theorem Account.eq_of_fields {x y : Account} (ho : x.owner = y.owner)
    (ha : x.available = y.available) (hh : x.held = y.held)
    (hl : x.locked = y.locked) (hd : x.deposits = y.deposits) : x = y := by
  cases x; cases y; simp_all

/-- Counterexample to C3 as stated: on `acctPostChargeback` the tx 1
entry is disputed, yet Chargeback(1) does not subtract the deposit
amount from held — it fails with `InsufficientFunds` (held is 0, the
amount 50000); and Chargeback(7), whose tx matches no entry, returns
success but leaves `locked = true`, not `locked = false`. -/
theorem chargeback_claim_counterexample :
    acctPostChargeback.apply (.Chargeback ⟨1⟩)
      = (acctPostChargeback, .err .InsufficientFunds) ∧
    acctPostChargeback.apply (.Chargeback ⟨7⟩)
      = (acctPostChargeback, .ok ()) ∧
    acctPostChargeback.locked = true := by
  refine ⟨?_, ?_, rfl⟩ <;> decide

/-- C3 (amended).  Chargeback on an account whose ledger lookup for
`tx` finds a disputed entry subtracts that entry's amount from held and
sets `locked := true` (available and the ledger unchanged) when the
amount is at most held, and fails with `InsufficientFunds` leaving the
account unchanged when the amount exceeds held; on a tx with no
matching entry, or a non-disputed match, it is a no-op returning
success and leaving the entire state — including `locked` — unchanged. -/
theorem chargeback_spec (a : Account) (txv : Tx) :
    (∀ dep, findDeposit txv a.deposits = some dep → dep.disputed = true →
      (a.held.val < dep.amount.val →
        a.apply (.Chargeback txv) = (a, .err .InsufficientFunds)) ∧
      (dep.amount.val ≤ a.held.val →
        (a.apply (.Chargeback txv)).snd = .ok () ∧
        (a.apply (.Chargeback txv)).fst.held.val
          = a.held.val - dep.amount.val ∧
        (a.apply (.Chargeback txv)).fst.locked = true ∧
        (a.apply (.Chargeback txv)).fst.available = a.available ∧
        (a.apply (.Chargeback txv)).fst.deposits = a.deposits)) ∧
    ((findDeposit txv a.deposits = none ∨
        ∃ dep, findDeposit txv a.deposits = some dep ∧
          dep.disputed = false) →
      a.apply (.Chargeback txv) = (a, .ok ())) := by
  constructor
  · intro dep hfind hd
    refine ⟨apply_chargeback_err a txv dep hfind hd, fun h1 => ?_⟩
    rw [apply_chargeback_ok a txv dep hfind hd h1]
    exact ⟨rfl, rfl, rfl, rfl, rfl⟩
  · rintro (h | ⟨dep, hfind, hnd⟩)
    · simp [Account.apply, h]
    · simp [Account.apply, hfind, hnd]

/-- Witness for C3 (amended): charging back the disputed tx 1 on
`acctDisputedOne` empties held and locks the account; a chargeback of
the unknown tx 9 is a no-op. -/
theorem chargeback_spec_witness :
    ((acctDisputedOne.apply (.Chargeback ⟨1⟩)).snd = .ok () ∧
      (acctDisputedOne.apply (.Chargeback ⟨1⟩)).fst.held.val = 0 ∧
      (acctDisputedOne.apply (.Chargeback ⟨1⟩)).fst.locked = true) ∧
    acctDisputedOne.apply (.Chargeback ⟨9⟩)
      = (acctDisputedOne, .ok ()) := by
  constructor
  · have h := ((chargeback_spec acctDisputedOne ⟨1⟩).1
      depOneDisputed (by decide) rfl).2 (by decide)
    exact ⟨h.1, h.2.1, h.2.2.1⟩
  · exact (chargeback_spec acctDisputedOne ⟨9⟩).2 (Or.inl (by decide))

/-- C7. Dispute/Resolve round-trip: when a dispute of `tx` succeeds
with effect (the lookup found a non-disputed entry), an immediate
Resolve of the same `tx` succeeds and returns the account to exactly
its pre-dispute state. -/
theorem dispute_resolve_roundtrip (a b : Account) (txv : Tx)
    (dep : Deposit)
    (hfind : findDeposit txv a.deposits = some dep)
    (hnd : dep.disputed = false)
    (happly : a.apply (.Dispute txv) = (b, .ok ())) :
    b.apply (.Resolve txv) = (a, .ok ()) := by
  by_cases h1 : dep.amount.val ≤ a.available.val
  case neg =>
    have hh : a.apply (.Dispute txv) = (a, .err .InsufficientFunds) := by
      simp [Account.apply, hfind, hnd,
        Amount.sub_err a.available dep.amount (Nat.lt_of_not_le h1)]
    rw [hh] at happly
    exact absurd (congrArg Prod.snd happly) (by simp)
  by_cases h2 : a.held.val + dep.amount.val < U64_MOD
  case neg =>
    have hh : a.apply (.Dispute txv) = (a, .err .Arithmetic) := by
      simp [Account.apply, hfind, hnd,
        Amount.sub_ok a.available dep.amount h1,
        Amount.add_err a.held dep.amount (Nat.le_of_not_lt h2)]
    rw [hh] at happly
    exact absurd (congrArg Prod.snd happly) (by simp)
  rw [apply_dispute_ok a txv dep hfind hnd h1 h2] at happly
  injection happly with hb _
  have hbav : b.available.val = a.available.val - dep.amount.val := by
    rw [← hb]
  have hbheld : b.held.val = a.held.val + dep.amount.val := by
    rw [← hb]
  have hbdeps : b.deposits = setDisputed txv true a.deposits := by
    rw [← hb]
  have hbowner : b.owner = a.owner := by
    rw [← hb]
  have hblocked : b.locked = a.locked := by
    rw [← hb]
  have hfindb : findDeposit txv b.deposits
      = some { dep with disputed := true } := by
    rw [hbdeps]
    exact findDeposit_setDisputed txv true a.deposits dep hfind
  have h1' : dep.amount.val ≤ b.held.val := by
    rw [hbheld]
    exact Nat.le_add_left _ _
  have h2' : b.available.val + dep.amount.val < U64_MOD := by
    rw [hbav, Nat.sub_add_cancel h1]
    exact a.available.isLt
  rw [apply_resolve_ok b txv { dep with disputed := true } hfindb rfl
    h1' h2']
  refine congrArg (fun x => (x, Result.ok ()))
    (Account.eq_of_fields hbowner ?_ ?_ hblocked ?_)
  · refine Amount.val_inj ?_
    show b.available.val + dep.amount.val = a.available.val
    rw [hbav]
    exact Nat.sub_add_cancel h1
  · refine Amount.val_inj ?_
    show b.held.val - dep.amount.val = a.held.val
    rw [hbheld]
    omega
  · show setDisputed txv false b.deposits = a.deposits
    rw [hbdeps, setDisputed_setDisputed]
    exact setDisputed_id txv false a.deposits dep hfind hnd

/-- Witness for C7: disputing tx 1 on `acctTwoDeposits` yields
`acctDisputedOne`, and resolving tx 1 there restores `acctTwoDeposits`
exactly. -/
theorem dispute_resolve_roundtrip_witness :
    acctDisputedOne.apply (.Resolve ⟨1⟩) = (acctTwoDeposits, .ok ()) :=
  dispute_resolve_roundtrip acctTwoDeposits acctDisputedOne ⟨1⟩
    (Deposit.new ⟨1⟩ ⟨10000, by decide⟩) (by decide) rfl (by decide)

/-- C8. Chargeback is not terminal at the code level: a successful
chargeback leaves the matched entry's disputed flag set, so on the
resulting account a second Chargeback of the same tx again subtracts
the amount from held whenever held suffices, and a Resolve of the same
tx credits the amount to available, releases it from held, and clears
the flag. -/
theorem chargeback_not_terminal (a b : Account) (txv : Tx)
    (dep : Deposit)
    (hfind : findDeposit txv a.deposits = some dep)
    (hd : dep.disputed = true)
    (happly : a.apply (.Chargeback txv) = (b, .ok ())) :
    findDeposit txv b.deposits = some dep ∧
    (dep.amount.val ≤ b.held.val →
      (b.apply (.Chargeback txv)).snd = .ok () ∧
      (b.apply (.Chargeback txv)).fst.held.val
        = b.held.val - dep.amount.val ∧
      (b.apply (.Chargeback txv)).fst.locked = true) ∧
    (dep.amount.val ≤ b.held.val →
      b.available.val + dep.amount.val < U64_MOD →
      (b.apply (.Resolve txv)).snd = .ok () ∧
      (b.apply (.Resolve txv)).fst.available.val
        = b.available.val + dep.amount.val ∧
      (b.apply (.Resolve txv)).fst.held.val
        = b.held.val - dep.amount.val ∧
      findDeposit txv (b.apply (.Resolve txv)).fst.deposits
        = some { dep with disputed := false }) := by
  by_cases h1 : dep.amount.val ≤ a.held.val
  case neg =>
    rw [apply_chargeback_err a txv dep hfind hd
      (Nat.lt_of_not_le h1)] at happly
    exact absurd (congrArg Prod.snd happly) (by simp)
  rw [apply_chargeback_ok a txv dep hfind hd h1] at happly
  injection happly with hb _
  have hfindb : findDeposit txv b.deposits = some dep := by
    rw [← hb]
    exact hfind
  refine ⟨hfindb, fun h1' => ?_, fun h1' h2' => ?_⟩
  · rw [apply_chargeback_ok b txv dep hfindb hd h1']
    exact ⟨rfl, rfl, rfl⟩
  · rw [apply_resolve_ok b txv dep hfindb hd h1' h2']
    exact ⟨rfl, rfl, rfl,
      findDeposit_setDisputed txv false b.deposits dep hfindb⟩

/-- Witness for C8: after the chargeback of tx 1, its entry is still
disputed, a second Chargeback(1) subtracts 1.0 from held again, and a
Resolve(1) credits 1.0 to available and clears the flag. -/
theorem chargeback_not_terminal_witness :
    findDeposit ⟨1⟩ acctAfterCb.deposits = some depOneDisputed ∧
    (acctAfterCb.apply (.Chargeback ⟨1⟩)).snd = .ok () ∧
    (acctAfterCb.apply (.Chargeback ⟨1⟩)).fst.held.val = 10000 ∧
    (acctAfterCb.apply (.Resolve ⟨1⟩)).snd = .ok () ∧
    (acctAfterCb.apply (.Resolve ⟨1⟩)).fst.available.val = 10000 ∧
    findDeposit ⟨1⟩ (acctAfterCb.apply (.Resolve ⟨1⟩)).fst.deposits
      = some { depOneDisputed with disputed := false } := by
  have h := chargeback_not_terminal acctBothDisputed acctAfterCb ⟨1⟩
    depOneDisputed (by decide) rfl (by decide)
  have h2 := h.2.1 (by decide)
  have h3 := h.2.2 (by decide) (by decide)
  exact ⟨h.1, h2.1, h2.2.1, h3.1, h3.2.1, h3.2.2.2⟩

end HoldACoin
